import Mathlib

/-!
Shallow embedding of the DuperMemory browser extension.

Embedded components:
* `utils/format.js` — `formatContextBlock` (JSON.stringify with 2-space indent,
  default-filling of the five summary fields, and the closing question).
* `background.js` — the coordinator service worker: the `pendingContext` /
  `pendingReview` routing tables and the handlers for CAPTURE, CLAUDE_READY and
  CLAUDE_RESPONSE messages, with tab creation modelled as a fresh-id allocation
  whose recording callback may run at any later point (or fail).
* `content/claude.js` — `waitForClaudeResponse` (the two-phase growth/stability
  completion detector, modelled as a fold over the sequence of polled
  `innerText` reads), `extractResponse`, and the message-sending skeleton of
  `runInjectionFlow`.

JS strings are modelled as Lean `String` (sequences of characters; `length` and
`slice` count characters, which agrees with JS code-unit counting on the
material handled here). JS object fields that may be absent are `Option`s, and
JS truthiness checks on them are modelled explicitly (`none`/`""`/`0` falsy).
-/

/-- Summary record as received by the coordinator from the ChatGPT agent.
Every field is optional; JS falsy scalars are represented by `none` or
`some ""`. -/
structure Summary where
  topic : Option String
  user_goal : Option String
  important_facts : Option (List String)
  decisions_made : Option (List String)
  current_task : Option String

/-- The five summary fields after the defaulting performed by
`formatContextBlock` (`|| ""` on scalars, `|| []` on sequences). -/
structure NormSummary where
  topic : String
  user_goal : String
  important_facts : List String
  decisions_made : List String
  current_task : String
  deriving DecidableEq

/-- Lower-case hex digit, as produced by JSON.stringify for control-character
escapes. -/
def hexDig (n : Nat) : Char :=
  if n < 10 then Char.ofNat (48 + n) else Char.ofNat (87 + n)

/-- Escape of one character inside a JSON string literal, exactly as
JSON.stringify performs it: the two-character escapes for quote, backslash,
backspace, form feed, newline, carriage return and tab; a hex escape for other
control characters; everything else verbatim. -/
def jsonEscapeChar (c : Char) : List Char :=
  if c = '"' then ['\\', '"']
  else if c = '\\' then ['\\', '\\']
  else if c = '\x08' then ['\\', 'b']
  else if c = '\x0c' then ['\\', 'f']
  else if c = '\n' then ['\\', 'n']
  else if c = '\r' then ['\\', 'r']
  else if c = '\t' then ['\\', 't']
  else if c.toNat < 32 then ['\\', 'u', '0', '0', hexDig (c.toNat / 16), hexDig (c.toNat % 16)]
  else [c]

/-- Escaped body of a JSON string literal. -/
def jsonEscape (s : String) : List Char :=
  (s.data.map jsonEscapeChar).flatten

/-- A JSON string literal: quote, escaped body, quote. -/
def jsonQuote (s : String) : String :=
  String.mk ('"' :: (jsonEscape s ++ ['"']))

/-- Items of a JSON array of strings at nesting depth 2 of
`JSON.stringify(·, null, 2)`: each item on its own line indented by four
spaces, separated by commas. -/
def jsonArrayItems : List String → String
  | [] => ""
  | [x] => "    " ++ jsonQuote x
  | x :: y :: t => "    " ++ jsonQuote x ++ ",\n" ++ jsonArrayItems (y :: t)

/-- A JSON array of strings as rendered by `JSON.stringify(·, null, 2)` for a
value sitting at depth 1: `[]` when empty, otherwise multi-line with the
closing bracket indented by two spaces. -/
def jsonStringArray : List String → String
  | [] => "[]"
  | x :: t => "[\n" ++ jsonArrayItems (x :: t) ++ "\n  ]"

/-- The defaulting `formatContextBlock` applies to the five fields:
`summary.topic || ""` etc. for the scalars, `|| []` for the two lists. -/
def normalizeSummary (sum : Summary) : NormSummary :=
  { topic := sum.topic.getD "",
    user_goal := sum.user_goal.getD "",
    important_facts := sum.important_facts.getD [],
    decisions_made := sum.decisions_made.getD [],
    current_task := sum.current_task.getD "" }

/-- The `contextJson` constant of `formatContextBlock`:
`JSON.stringify(\x7b topic, user_goal, important_facts, decisions_made,
current_task \x7d, null, 2)` after defaulting, rendered literally. -/
def contextJsonOf (sum : Summary) : String :=
  "\x7b\n  \"topic\": " ++ jsonQuote (sum.topic.getD "") ++
  ",\n  \"user_goal\": " ++ jsonQuote (sum.user_goal.getD "") ++
  ",\n  \"important_facts\": " ++ jsonStringArray (sum.important_facts.getD []) ++
  ",\n  \"decisions_made\": " ++ jsonStringArray (sum.decisions_made.getD []) ++
  ",\n  \"current_task\": " ++ jsonQuote (sum.current_task.getD "") ++ "\n\x7d"

/-- Fallback closing question used when `summary.current_task` is falsy. -/
def genericQuestion : String := "What are your thoughts on the above context?"

/-- Closing question used when `summary.current_task` is truthy. -/
def continueQuestion (task : String) : String :=
  "Please help me continue with: " ++ task

/-- The `question` constant of `formatContextBlock`:
`summary.current_task ? "Please help me continue with: " + summary.current_task
: "What are your thoughts on the above context?"`. A missing field and the
empty string are the falsy cases for a string-valued field. -/
def questionOf (sum : Summary) : String :=
  match sum.current_task with
  | some t => if t = "" then genericQuestion else continueQuestion t
  | none => genericQuestion

/-- First line of the formatted context block. -/
def contextPreamble : String :=
  "I am continuing a conversation from another AI. Here is the structured context:"

/-- `formatContextBlock` from `utils/format.js`: the join with `"\n"` of
`[preamble, "", contextJson, "", question]`, written out. -/
def formatContextBlock (sum : Summary) : String :=
  contextPreamble ++ "\n\n" ++ contextJsonOf sum ++ "\n\n" ++ questionOf sum

/-- Last line of a string: the maximal suffix containing no newline. -/
def lastLineOf (s : String) : String :=
  String.mk ((s.data.reverse.takeWhile (fun c => c ≠ '\n')).reverse)

/-- The JS truthiness condition on `summary.current_task` that selects the
generic closing question. -/
def currentTaskFalsy (sum : Summary) : Prop :=
  sum.current_task = none ∨ sum.current_task = some ""

/-! ### Coordinator (background.js) -/

/-- Coordinator state: the two routing tables keyed by Claude-tab identity,
plus the tab-creation callbacks that have been issued by `handleCapture` but
have not run yet (`inflight`), and the fresh-tab-id allocator. Tab identity 0
stands for "no tab" (a falsy `sender.tab && sender.tab.id`); real tabs get
identities from 1 upward. -/
structure BgState where
  pendingContext : Nat → Option (String × Nat)
  pendingReview : Nat → Option Nat
  inflight : List (Nat × String × Nat)
  nextTab : Nat

/-- Reply delivered through `sendResponse` to a CLAUDE_READY message: either
the INJECT payload carrying the context block, or the `null` "no work" reply
sent on a regular claude.ai visit. -/
inductive ReadyReply where
  | inject (contextBlock : String)
  | noWork
  deriving DecidableEq

/-- An INJECT_CRITIQUE message dispatched by `sendCritiqueToTab` via
`chrome.tabs.sendMessage`. -/
structure CritiqueMsg where
  tabId : Nat
  content : String
  deriving DecidableEq

/-- Fixed preamble `sendCritiqueToTab` prepends to Claude's response before
forwarding it to the ChatGPT tab. -/
def critiqueHeader : String :=
  "Another AI reviewed your answer. Revise your response considering this critique:\n\n"

/-- Initial coordinator state: both tables empty, no callbacks in flight. -/
def initState : BgState :=
  { pendingContext := fun _ => none,
    pendingReview := fun _ => none,
    inflight := [],
    nextTab := 1 }

/-- `handleCapture`: drops an invalid summary (`!summary || typeof summary !==
"object"`, modelled by `none`) or an unidentifiable source tab
(`!sourceTabId`), otherwise formats the context block and calls
`chrome.tabs.create`, which allocates a fresh tab identity; the callback that
records the `pendingContext` entry is registered (appended to `inflight`) and
runs later. -/
def handleCapture (s : BgState) (summary : Option Summary) (sourceTabId : Nat) : BgState :=
  match summary with
  | none => s
  | some sum =>
    if sourceTabId = 0 then s
    else
      { s with
        inflight := s.inflight ++ [(s.nextTab, formatContextBlock sum, sourceTabId)],
        nextTab := s.nextTab + 1 }

/-- The `chrome.tabs.create` callback for the `i`-th registered capture
runs: on success it records `pendingContext[tab.id] = (contextBlock,
sourceTabId)`; on `chrome.runtime.lastError` (`ok = false`) it records
nothing. Either way the callback is consumed. -/
def runTabCallback (s : BgState) (i : Nat) (ok : Bool) : BgState :=
  match s.inflight.get? i with
  | none => s
  | some (t, cb, src) =>
    if ok then
      { s with
        inflight := s.inflight.eraseIdx i,
        pendingContext := fun u => if u = t then some (cb, src) else s.pendingContext u }
    else
      { s with inflight := s.inflight.eraseIdx i }

/-- The CLAUDE_READY branch of the message listener: when the sender is a tab
with a `pendingContext` entry, delete the entry, record
`pendingReview[senderTabId] = sourceTabId`, and reply INJECT with the context
block; otherwise reply `null` ("no work"). -/
def handleReady (s : BgState) (senderTab : Nat) : BgState × ReadyReply :=
  if senderTab = 0 then (s, ReadyReply.noWork)
  else
    match s.pendingContext senderTab with
    | some (cb, src) =>
      ({ s with
         pendingContext := fun u => if u = senderTab then none else s.pendingContext u,
         pendingReview := fun u => if u = senderTab then some src else s.pendingReview u },
       ReadyReply.inject cb)
    | none => (s, ReadyReply.noWork)

/-- The CLAUDE_RESPONSE branch of the message listener: when the sender is a
tab whose `pendingReview` entry is truthy (present and, the entry being a JS
number, nonzero), delete it and forward the content through
`sendCritiqueToTab`, which prepends `critiqueHeader` and sends INJECT_CRITIQUE
to the recorded source tab; otherwise do nothing. -/
def handleResult (s : BgState) (senderTab : Nat) (content : String) :
    BgState × List CritiqueMsg :=
  if senderTab = 0 then (s, [])
  else
    match s.pendingReview senderTab with
    | some src =>
      if src = 0 then (s, [])
      else
        ({ s with
           pendingReview := fun u => if u = senderTab then none else s.pendingReview u },
         [{ tabId := src, content := critiqueHeader ++ content }])
    | none => (s, [])

/-- One coordinator-visible event: an incoming message, or a pending
tab-creation callback firing. -/
inductive Ev where
  | capture (summary : Option Summary) (senderTab : Nat)
  | tabCreated (i : Nat) (ok : Bool)
  | ready (senderTab : Nat)
  | result (senderTab : Nat) (content : String)

/-- State transition of the coordinator on one event. -/
def step (s : BgState) (e : Ev) : BgState :=
  match e with
  | Ev.capture summary senderTab => handleCapture s summary senderTab
  | Ev.tabCreated i ok => runTabCallback s i ok
  | Ev.ready senderTab => (handleReady s senderTab).1
  | Ev.result senderTab content => (handleResult s senderTab content).1

/-- Coordinator state reached from start-up after a sequence of events. -/
def run (evs : List Ev) : BgState :=
  evs.foldl step initState

/-! ### Response-completion detector (content/claude.js) -/

/-- The four numeric constants of `waitForClaudeResponse` (`POLL_MS`,
`STABLE_NEEDED`, `MIN_NEW_CHARS`, `TIMEOUT_MS`), kept as a parameter so the
detector theorems cover every snapshot/threshold combination. -/
structure DetCfg where
  pollMs : Nat
  stableNeeded : Nat
  minNewChars : Nat
  timeoutMs : Nat
  deriving DecidableEq

/-- The constants as set in `content/claude.js`: 500 ms poll, 4 stable polls,
50 new characters, 90 s timeout. -/
def claudeCfg : DetCfg :=
  { pollMs := 500, stableNeeded := 4, minNewChars := 50, timeoutMs := 90000 }

/-- Mutable locals of the `tick` closure in `waitForClaudeResponse`. -/
structure DetSt where
  phase : Nat
  lastLength : Nat
  stableCount : Nat
  elapsed : Nat
  deriving DecidableEq

/-- Result of one `tick`: reject on timeout, resolve with the extracted
response, or continue polling in an updated state. -/
inductive DetStep where
  | timeout
  | done (response : String)
  | next (st : DetSt)
  deriving DecidableEq

/-- Outcome of running the detector against a finite sequence of reads:
rejected by timeout, resolved, or still polling when the reads ran out. -/
inductive DetOut where
  | timedOut
  | resolved (response : String)
  | pending (st : DetSt)
  deriving DecidableEq

/-- Whitespace trim on both ends, as JS `String.prototype.trim` (restricted to
the whitespace characters that occur here). -/
def trimChars (l : List Char) : List Char :=
  ((l.dropWhile Char.isWhitespace).reverse.dropWhile Char.isWhitespace).reverse

/-- Split on newline, as JS `split("\n")`: the empty text yields one empty
piece, and adjacent separators yield empty pieces. -/
def splitLines : List Char → List (List Char)
  | [] => [[]]
  | c :: cs =>
    if c = '\n' then [] :: splitLines cs
    else
      match splitLines cs with
      | [] => [[c]]
      | h :: t => (c :: h) :: t

/-- Join with newline, as JS `join("\n")`. -/
def joinLines : List (List Char) → List Char
  | [] => []
  | [x] => x
  | x :: y :: t => x ++ '\n' :: joinLines (y :: t)

/-- `extractResponse` from `content/claude.js`: take the suffix of the current
scoped text beyond the snapshot length, trim it, split into lines, trim each
line, keep only lines longer than 10 characters, re-join and trim. -/
def extractResponse (beforeText afterText : String) : String :=
  let raw := trimChars (afterText.data.drop beforeText.length)
  let meaningful := ((splitLines raw).map trimChars).filter (fun l => l.length > 10)
  String.mk (trimChars (joinLines meaningful))

/-- One `tick` of `waitForClaudeResponse` given the current scoped text:
reject if the timeout budget is exhausted; in phase 1 move to phase 2 once the
text exceeds the snapshot length by more than `minNewChars`; in phase 2 count
consecutive length-stable reads, resolving at `stableNeeded`, and reset the
counter (recording the new length) on any change. -/
def detTick (cfg : DetCfg) (snapshot : String) (st : DetSt) (currentText : String) : DetStep :=
  if st.elapsed ≥ cfg.timeoutMs then DetStep.timeout
  else if st.phase = 1 then
    if currentText.length > snapshot.length + cfg.minNewChars then
      DetStep.next { st with phase := 2, lastLength := currentText.length,
                             elapsed := st.elapsed + cfg.pollMs }
    else
      DetStep.next { st with elapsed := st.elapsed + cfg.pollMs }
  else
    if currentText.length = st.lastLength then
      if st.stableCount + 1 ≥ cfg.stableNeeded then
        DetStep.done (extractResponse snapshot currentText)
      else
        DetStep.next { st with stableCount := st.stableCount + 1,
                               elapsed := st.elapsed + cfg.pollMs }
    else
      DetStep.next { st with stableCount := 0, lastLength := currentText.length,
                             elapsed := st.elapsed + cfg.pollMs }

/-- Detector run over a finite sequence of polled reads of the scoped text. -/
def detRun (cfg : DetCfg) (snapshot : String) : DetSt → List String → DetOut
  | st, [] => DetOut.pending st
  | st, cur :: rest =>
    match detTick cfg snapshot st cur with
    | DetStep.timeout => DetOut.timedOut
    | DetStep.done r => DetOut.resolved r
    | DetStep.next st2 => detRun cfg snapshot st2 rest

/-- `waitForClaudeResponse`: phase 1, `lastLength` initialised from the scoped
text at call time, zero stable count, zero elapsed time, then tick once per
polled read. -/
def waitForClaudeResponse (cfg : DetCfg) (snapshot initialText : String)
    (reads : List String) : DetOut :=
  detRun cfg snapshot
    { phase := 1, lastLength := initialText.length, stableCount := 0, elapsed := 0 } reads

/-- Message from the Claude content script to the coordinator. -/
inductive AgentToBgMsg where
  | claudeResponse (content : String)
  deriving DecidableEq

/-- Terminal status of one run of `runInjectionFlow`. -/
inductive FlowOutcome where
  | failed
  | emptyAbandoned
  | reported (content : String)
  deriving DecidableEq

/-- The decision skeleton of `runInjectionFlow`: fail (throw) when the input
field never appears or submission finds no control, run the completion
detector, and on resolution send CLAUDE_RESPONSE — unless the extracted
response is empty (`if (!claudeResponse)`), in which case abandon silently.
The DOM environment is abstracted into whether the input appears, whether
submission succeeds, the post-injection snapshot, and the polled reads. -/
def runInjectionFlow (inputFound submitOk : Bool) (snapshot initialText : String)
    (reads : List String) : FlowOutcome × List AgentToBgMsg :=
  if !inputFound then (FlowOutcome.failed, [])
  else if !submitOk then (FlowOutcome.failed, [])
  else
    match waitForClaudeResponse claudeCfg snapshot initialText reads with
    | DetOut.resolved r =>
      if r = "" then (FlowOutcome.emptyAbandoned, [])
      else (FlowOutcome.reported r, [AgentToBgMsg.claudeResponse r])
    | _ => (FlowOutcome.failed, [])

/-! ### Extraction of the embedded structured fields

The source only ever formats a summary; the spec's round-trip property speaks
of "extracting the embedded structured fields back out". The following parser
is that extraction: it consumes exactly the text shape `formatContextBlock`
emits — fixed preamble, the five JSON fields in order with
JSON.stringify-style escaping, the closing brace — and returns the five
fields. -/

/-- Value of a hex digit as accepted in a JSON `\u` escape. -/
def hexVal (c : Char) : Option Nat :=
  if 48 ≤ c.toNat ∧ c.toNat ≤ 57 then some (c.toNat - 48)
  else if 97 ≤ c.toNat ∧ c.toNat ≤ 102 then some (c.toNat - 87)
  else if 65 ≤ c.toNat ∧ c.toNat ≤ 70 then some (c.toNat - 55)
  else none

/-- Consume an exact literal from the front of the input. -/
def expectChars : List Char → List Char → Option (List Char)
  | [], input => some input
  | _ :: _, [] => none
  | p :: ps, c :: cs => if c = p then expectChars ps cs else none

/-- Parse the body of a JSON string literal (the opening quote already
consumed) up to and through its closing quote, undoing the escapes; `fuel`
bounds the recursion and one unit is spent per parsed character. -/
def parseJString : Nat → List Char → List Char → Option (String × List Char)
  | 0, _, _ => none
  | _ + 1, _, [] => none
  | fuel + 1, acc, c :: cs =>
    if c = '"' then some (String.mk acc.reverse, cs)
    else if c = '\\' then
      match cs with
      | [] => none
      | e :: cs2 =>
        if e = '"' then parseJString fuel ('"' :: acc) cs2
        else if e = '\\' then parseJString fuel ('\\' :: acc) cs2
        else if e = 'b' then parseJString fuel ('\x08' :: acc) cs2
        else if e = 'f' then parseJString fuel ('\x0c' :: acc) cs2
        else if e = 'n' then parseJString fuel ('\n' :: acc) cs2
        else if e = 'r' then parseJString fuel ('\r' :: acc) cs2
        else if e = 't' then parseJString fuel ('\t' :: acc) cs2
        else if e = 'u' then
          match cs2 with
          | h1 :: h2 :: h3 :: h4 :: cs3 =>
            match hexVal h1, hexVal h2, hexVal h3, hexVal h4 with
            | some v1, some v2, some v3, some v4 =>
              parseJString fuel (Char.ofNat (((v1 * 16 + v2) * 16 + v3) * 16 + v4) :: acc) cs3
            | _, _, _, _ => none
          | _ => none
        else none
    else parseJString fuel (c :: acc) cs

/-- Parse the items of a non-empty depth-2 JSON string array: each item on a
four-space-indented line, comma separators, terminated by the
two-space-indented closing bracket; `fuel` bounds the number of items. -/
def parseArrayLoop : Nat → List Char → Option (List String × List Char)
  | 0, _ => none
  | fuel + 1, input =>
    match expectChars [' ', ' ', ' ', ' ', '"'] input with
    | none => none
    | some r1 =>
      match parseJString (r1.length + 1) [] r1 with
      | none => none
      | some (x, r2) =>
        match r2 with
        | ',' :: '\n' :: r3 =>
          match parseArrayLoop fuel r3 with
          | some (xs, r4) => some (x :: xs, r4)
          | none => none
        | '\n' :: ' ' :: ' ' :: ']' :: r3 => some ([x], r3)
        | _ => none

/-- Parse a depth-1 JSON string array as emitted by
`JSON.stringify(·, null, 2)`: `[]`, or a bracketed multi-line item list. -/
def parseJsonArray (input : List Char) : Option (List String × List Char) :=
  match input with
  | '[' :: ']' :: rest => some ([], rest)
  | '[' :: '\n' :: rest => parseArrayLoop (rest.length + 1) rest
  | _ => none

/-- Extraction of the five structured fields back out of a formatted context
block: consume the preamble and the five JSON fields in order, undoing the
string escaping, and ignore the closing question after the final brace. -/
def extractContextFields (block : String) : Option NormSummary :=
  match expectChars (contextPreamble ++ "\n\n\x7b\n  \"topic\": \"").data block.data with
  | none => none
  | some r1 =>
    match parseJString (r1.length + 1) [] r1 with
    | none => none
    | some (topicV, r2) =>
      match expectChars (",\n  \"user_goal\": \"").data r2 with
      | none => none
      | some r3 =>
        match parseJString (r3.length + 1) [] r3 with
        | none => none
        | some (goalV, r4) =>
          match expectChars (",\n  \"important_facts\": ").data r4 with
          | none => none
          | some r5 =>
            match parseJsonArray r5 with
            | none => none
            | some (factsV, r6) =>
              match expectChars (",\n  \"decisions_made\": ").data r6 with
              | none => none
              | some r7 =>
                match parseJsonArray r7 with
                | none => none
                | some (decsV, r8) =>
                  match expectChars (",\n  \"current_task\": \"").data r8 with
                  | none => none
                  | some r9 =>
                    match parseJString (r9.length + 1) [] r9 with
                    | none => none
                    | some (taskV, r10) =>
                      match expectChars ("\n\x7d").data r10 with
                      | none => none
                      | some _ =>
                        some { topic := topicV, user_goal := goalV,
                               important_facts := factsV, decisions_made := decsV,
                               current_task := taskV }

/-! ### Concrete inputs used by scenario theorems and witnesses -/

/-- A summary with every field absent. -/
def emptySummary : Summary :=
  { topic := none, user_goal := none, important_facts := none,
    decisions_made := none, current_task := none }

/-- 1000-character pre-submission snapshot for the C7 scenario. -/
def snapA : String := String.mk (List.replicate 1000 'a')

/-- 20 characters of incidental growth for the C7 scenario. -/
def padB : String := String.mk (List.replicate 20 'b')

/-- The 60-character single-line response suffix for the C7 scenario. -/
def respLine : String := String.mk (List.replicate 60 'c')

/-- Polled read of length 1020 for the C7 scenario. -/
def read1020 : String := snapA ++ padB

/-- Polled read of length 1060 for the C7 scenario. -/
def read1060 : String := snapA ++ respLine

/-- A 60-character read consisting only of short lines, whose extraction
filters to nothing. -/
def shortLinesRead : String := String.mk ((List.replicate 15 ['a', 'b', 'c', '\n']).flatten)

/-- A 60-character single-line read whose extraction survives filtering. -/
def longRead : String := String.mk (List.replicate 60 'd')

/-! ### Coordinator invariant -/

/-- Inductive invariant of the coordinator: mutual exclusion of the two
tables, pending callbacks target fresh tabs unknown to both tables with
pairwise-distinct identities, and every recorded tab identity is a real
(nonzero) identity below the allocator, with nonzero recorded source tabs. -/
def CoordInv (s : BgState) : Prop :=
  (∀ t, (s.pendingContext t).isSome → s.pendingReview t = none) ∧
  (∀ e ∈ s.inflight, s.pendingContext e.1 = none ∧ s.pendingReview e.1 = none ∧
      0 < e.1 ∧ e.1 < s.nextTab ∧ e.2.2 ≠ 0) ∧
  s.inflight.Pairwise (fun a b => a.1 ≠ b.1) ∧
  (∀ t cb src, s.pendingContext t = some (cb, src) → 0 < t ∧ t < s.nextTab ∧ src ≠ 0) ∧
  (∀ t src, s.pendingReview t = some src → 0 < t ∧ t < s.nextTab ∧ src ≠ 0) ∧
  0 < s.nextTab

/-! ## Theorems -/

lemma detRun_growth_index (cfg : DetCfg) (snapshot : String) :
    ∀ (reads : List String) (st : DetSt) (r : String), st.phase = 1 →
      detRun cfg snapshot st reads = DetOut.resolved r →
      ∃ i : Nat, ∃ hi : i < reads.length,
        reads[i].length > snapshot.length + cfg.minNewChars ∧
        ∀ j, (hj : j < reads.length) → j < i →
          reads[j].length ≤ snapshot.length + cfg.minNewChars := by
  intro reads
  induction reads with
  | nil => intro st r _ h2; simp [detRun] at h2
  | cons cur rest ih =>
    intro st r h1 h2
    simp only [detRun] at h2
    by_cases ht : st.elapsed ≥ cfg.timeoutMs
    · rw [show detTick cfg snapshot st cur = DetStep.timeout by simp [detTick, ht]] at h2
      simp at h2
    · by_cases hg : cur.length > snapshot.length + cfg.minNewChars
      · exact ⟨0, Nat.succ_pos _, by simpa using hg,
          fun j hj hj0 => absurd hj0 (Nat.not_lt_zero j)⟩
      · have hstep : detTick cfg snapshot st cur =
            DetStep.next { st with elapsed := st.elapsed + cfg.pollMs } := by
          simp [detTick, ht, h1, hg]
        rw [hstep] at h2
        have h3 : detRun cfg snapshot { st with elapsed := st.elapsed + cfg.pollMs } rest =
            DetOut.resolved r := h2
        obtain ⟨i, hi, hgt, hbnd⟩ := ih { st with elapsed := st.elapsed + cfg.pollMs } r h1 h3
        refine ⟨i + 1, Nat.succ_lt_succ hi, by simpa using hgt, ?_⟩
        intro j hj hji
        cases j with
        | zero => simpa using Nat.le_of_not_lt hg
        | succ k =>
          have hk : k < rest.length := Nat.lt_of_succ_lt_succ hj
          have hbk := hbnd k hk (Nat.lt_of_succ_lt_succ hji)
          simpa using hbk

lemma detRun_phase1_no_resolve (cfg : DetCfg) (snapshot : String) :
    ∀ (reads : List String) (st : DetSt), st.phase = 1 →
      (∀ cur ∈ reads, cur.length ≤ snapshot.length + cfg.minNewChars) →
      ∀ r, detRun cfg snapshot st reads ≠ DetOut.resolved r := by
  intro reads
  induction reads with
  | nil => intro st _ _ r h; simp [detRun] at h
  | cons cur rest ih =>
    intro st h1 hall r h2
    simp only [detRun] at h2
    by_cases ht : st.elapsed ≥ cfg.timeoutMs
    · rw [show detTick cfg snapshot st cur = DetStep.timeout by simp [detTick, ht]] at h2
      simp at h2
    · have hg : ¬(cur.length > snapshot.length + cfg.minNewChars) :=
        Nat.not_lt.mpr (hall cur (List.mem_cons_self _ _))
      have hstep : detTick cfg snapshot st cur =
          DetStep.next { st with elapsed := st.elapsed + cfg.pollMs } := by
        simp [detTick, ht, h1, hg]
      rw [hstep] at h2
      have h3 : detRun cfg snapshot { st with elapsed := st.elapsed + cfg.pollMs } rest =
          DetOut.resolved r := h2
      exact ih { st with elapsed := st.elapsed + cfg.pollMs } h1
        (fun c hc => hall c (List.mem_cons_of_mem _ hc)) r h3

/-- Claim C2: for every pre-submission snapshot and every sequence of polled
scoped-text reads, the response-completion detector never resolves
successfully unless some earlier or equal poll observed a text length strictly
greater than the snapshot length plus the minimum-new-characters threshold:
there is a growth-observing poll `i` such that the detector had not resolved
on any proper prefix of the reads up to `i`, so success in the stability phase
is impossible without the growth phase having been exited first. -/
theorem c2_no_success_before_growth (cfg : DetCfg) (snapshot initialText : String)
    (reads : List String) (r : String)
    (h : waitForClaudeResponse cfg snapshot initialText reads = DetOut.resolved r) :
    ∃ i : Nat, ∃ hi : i < reads.length,
      reads[i].length > snapshot.length + cfg.minNewChars ∧
      ∀ r2, waitForClaudeResponse cfg snapshot initialText (reads.take i) ≠
        DetOut.resolved r2 := by
  obtain ⟨i, hi, hgt, hbnd⟩ := detRun_growth_index cfg snapshot reads
    { phase := 1, lastLength := initialText.length, stableCount := 0, elapsed := 0 } r rfl h
  refine ⟨i, hi, hgt, ?_⟩
  intro r2
  apply detRun_phase1_no_resolve cfg snapshot (reads.take i)
    { phase := 1, lastLength := initialText.length, stableCount := 0, elapsed := 0 } rfl
  intro cur hcur
  obtain ⟨j, hjlen, hjc⟩ := List.mem_iff_getElem.mp hcur
  have hji : j < i := by
    have hmin := hjlen
    rw [List.length_take] at hmin
    omega
  have hjr : j < reads.length := by
    have hmin := hjlen
    rw [List.length_take] at hmin
    omega
  rw [← hjc, List.getElem_take]
  exact hbnd j hjr hji

/-- Witness for C2: a run that does resolve, on five identical 60-character
reads against an empty snapshot, exhibits the growth-observing poll. -/
theorem c2_no_success_before_growth_witness :
    ∃ i : Nat,
      ∃ hi : i < ([longRead, longRead, longRead, longRead, longRead] : List String).length,
      ([longRead, longRead, longRead, longRead, longRead] : List String)[i].length >
        String.length "" + claudeCfg.minNewChars ∧
      ∀ r2, waitForClaudeResponse claudeCfg "" ""
          (([longRead, longRead, longRead, longRead, longRead] : List String).take i) ≠
        DetOut.resolved r2 :=
  c2_no_success_before_growth claudeCfg "" ""
    [longRead, longRead, longRead, longRead, longRead] longRead (by decide)

/-- Claim C4: in the detector's stability phase, every poll that observes a
scoped-text length different from the previously recorded length sets the
consecutive-stable-poll counter to zero: immediately after any
mid-stability-phase length change the counter is always 0. -/
theorem c4_stability_counter_resets (cfg : DetCfg) (snapshot : String) (st : DetSt)
    (currentText : String) (st2 : DetSt)
    (hphase : st.phase ≠ 1) (hchange : currentText.length ≠ st.lastLength)
    (hstep : detTick cfg snapshot st currentText = DetStep.next st2) :
    st2.stableCount = 0 := by
  by_cases ht : st.elapsed ≥ cfg.timeoutMs
  · simp [detTick, ht] at hstep
  · simp only [detTick, if_neg ht, if_neg hphase, if_neg hchange] at hstep
    rw [← (DetStep.next.injEq _ _).mp hstep]

/-- Witness for C4: a concrete stability-phase state with last length 5 that
observes an empty read has counter 0 afterwards. -/
theorem c4_stability_counter_resets_witness :
    detTick claudeCfg "" { phase := 2, lastLength := 5, stableCount := 3, elapsed := 0 } "" =
      DetStep.next { phase := 2, lastLength := 0, stableCount := 0, elapsed := 500 } ∧
    DetSt.stableCount { phase := 2, lastLength := 0, stableCount := 0, elapsed := 500 } = 0 :=
  ⟨by decide,
   c4_stability_counter_resets claudeCfg ""
     { phase := 2, lastLength := 5, stableCount := 3, elapsed := 0 } ""
     { phase := 2, lastLength := 0, stableCount := 0, elapsed := 500 }
     (by decide) (by decide) (by decide)⟩

set_option maxRecDepth 100000 in
/-- Claim C7: with snapshot length 1000 and the source constants (threshold
50, 4 stable polls at 500 ms), the read sequence
`[1000, 1020, 1060, 1060, 1060, 1060, 1060]` stays in the growth phase
through the 1000 and 1020 reads, enters the stability phase at the first 1060
read, resolves at the 4th consecutive unchanged 1060 (the 7th read), and
returns the extraction of the suffix of the final text beyond offset 1000. -/
theorem c7_scenario_growth_then_stability :
    waitForClaudeResponse claudeCfg snapA snapA [snapA, read1020] =
      DetOut.pending { phase := 1, lastLength := 1000, stableCount := 0, elapsed := 1000 } ∧
    waitForClaudeResponse claudeCfg snapA snapA [snapA, read1020, read1060] =
      DetOut.pending { phase := 2, lastLength := 1060, stableCount := 0, elapsed := 1500 } ∧
    waitForClaudeResponse claudeCfg snapA snapA
        [snapA, read1020, read1060, read1060, read1060, read1060] =
      DetOut.pending { phase := 2, lastLength := 1060, stableCount := 3, elapsed := 3000 } ∧
    waitForClaudeResponse claudeCfg snapA snapA
        [snapA, read1020, read1060, read1060, read1060, read1060, read1060] =
      DetOut.resolved (extractResponse snapA read1060) ∧
    extractResponse snapA read1060 = respLine ∧
    respLine = String.mk (read1060.data.drop snapA.length) := by
  refine ⟨by decide, by decide, by decide, by decide, by decide, by decide⟩

/-- Claim C8: for every run of Agent B's injection flow, if the detector
resolves with an empty extraction, the flow sends no CLAUDE_RESPONSE message
to the coordinator. -/
theorem c8_empty_extraction_not_forwarded (inputFound submitOk : Bool)
    (snapshot initialText : String) (reads : List String)
    (h : waitForClaudeResponse claudeCfg snapshot initialText reads = DetOut.resolved "") :
    (runInjectionFlow inputFound submitOk snapshot initialText reads).2 = [] := by
  cases inputFound <;> cases submitOk <;> simp [runInjectionFlow, h]

/-- Witness for C8: five reads of 60 characters of short lines resolve with an
empty extraction, and the flow sends nothing. -/
theorem c8_empty_extraction_not_forwarded_witness :
    (runInjectionFlow true true "" ""
      [shortLinesRead, shortLinesRead, shortLinesRead, shortLinesRead, shortLinesRead]).2 = [] :=
  c8_empty_extraction_not_forwarded true true "" ""
    [shortLinesRead, shortLinesRead, shortLinesRead, shortLinesRead, shortLinesRead] (by decide)

/-- Claim C3: whenever the sender's tab identity has no PendingContext entry —
including the race where CLAUDE_READY arrives before the Capture tab-creation
callback has recorded the entry — handling CLAUDE_READY replies "no work" (the
`null` reply, not an error) and leaves the whole coordinator state, both
routing tables included, exactly as it was. -/
theorem c3_ready_without_entry_no_work (s : BgState) (senderTab : Nat)
    (h : s.pendingContext senderTab = none) :
    handleReady s senderTab = (s, ReadyReply.noWork) := by
  by_cases h0 : senderTab = 0
  · simp [handleReady, h0]
  · simp [handleReady, h0, h]

/-- Witness for C3: after a Capture whose tab-creation callback has not yet
run (the race of the spec), tab 1 has no entry and CLAUDE_READY gets "no
work" with the state unchanged. -/
theorem c3_ready_without_entry_no_work_witness :
    handleReady (run [Ev.capture (some emptySummary) 5]) 1 =
      (run [Ev.capture (some emptySummary) 5], ReadyReply.noWork) :=
  c3_ready_without_entry_no_work (run [Ev.capture (some emptySummary) 5]) 1 rfl

/-- Claim C6: whenever the sender's tab identity has no PendingReview entry,
handling CLAUDE_RESPONSE is a no-op: no critique-injection message is sent to
any tab, and the whole coordinator state, both routing tables included, is
unchanged. -/
theorem c6_result_without_entry_noop (s : BgState) (senderTab : Nat) (content : String)
    (h : s.pendingReview senderTab = none) :
    handleResult s senderTab content = (s, []) := by
  by_cases h0 : senderTab = 0
  · simp [handleResult, h0]
  · simp [handleResult, h0, h]

/-- Witness for C6: a CLAUDE_RESPONSE arriving in the initial state is
dropped. -/
theorem c6_result_without_entry_noop_witness :
    handleResult initState 3 "late" = (initState, []) :=
  c6_result_without_entry_noop initState 3 "late" rfl

lemma pairwise_get_eraseIdx {α : Type} {R : α → α → Prop} :
    ∀ (l : List α) (i : Nat) (a : α), l.Pairwise R → l.get? i = some a →
      ∀ b ∈ l.eraseIdx i, R a b ∨ R b a := by
  intro l
  induction l with
  | nil => intro i a _ hg; simp [List.get?] at hg
  | cons hd tl ih =>
    intro i a hp hg b hb
    rcases List.pairwise_cons.mp hp with ⟨hhd, htl⟩
    cases i with
    | zero =>
      rw [List.get?_cons_zero, Option.some.injEq] at hg
      subst hg
      rw [List.eraseIdx_cons_zero] at hb
      exact Or.inl (hhd b hb)
    | succ n =>
      rw [List.get?_cons_succ] at hg
      rw [List.eraseIdx_cons_succ, List.mem_cons] at hb
      rcases hb with hb | hb
      · subst hb
        exact Or.inr (hhd a (List.get?_mem hg))
      · exact ih n a htl hg b hb

lemma coordInv_init : CoordInv initState := by
  refine ⟨?_, ?_, ?_, ?_, ?_, ?_⟩ <;> simp [initState]

lemma coordInv_capture (s : BgState) (summary : Option Summary) (src : Nat)
    (h : CoordInv s) : CoordInv (handleCapture s summary src) := by
  obtain ⟨h1, h2, h3, h4, h5, h6⟩ := h
  match summary with
  | none => exact ⟨h1, h2, h3, h4, h5, h6⟩
  | some su =>
    by_cases h0 : src = 0
    · simp only [handleCapture, if_pos h0]
      exact ⟨h1, h2, h3, h4, h5, h6⟩
    · simp only [handleCapture, if_neg h0]
      refine ⟨h1, ?_, ?_, ?_, ?_, ?_⟩
      · intro e he
        have he2 : e ∈ s.inflight ++ [(s.nextTab, formatContextBlock su, src)] := he
        rw [List.mem_append, List.mem_singleton] at he2
        rcases he2 with he2 | he2
        · obtain ⟨ha, hb, hc, hd, hee⟩ := h2 e he2
          exact ⟨ha, hb, hc, Nat.lt_succ_of_lt hd, hee⟩
        · subst he2
          refine ⟨?_, ?_, h6, Nat.lt_succ_self _, h0⟩
          · cases hpc : s.pendingContext s.nextTab with
            | none => rfl
            | some v =>
              exact absurd (h4 _ v.1 v.2 (by rw [hpc])).2.1 (Nat.lt_irrefl _)
          · cases hpr : s.pendingReview s.nextTab with
            | none => rfl
            | some v =>
              exact absurd (h5 _ v (by rw [hpr])).2.1 (Nat.lt_irrefl _)
      · refine List.pairwise_append.mpr ⟨h3, by simp, ?_⟩
        intro a ha b hb
        rw [List.mem_singleton] at hb
        subst hb
        exact Nat.ne_of_lt (h2 a ha).2.2.2.1
      · intro t cb src2 hpc
        obtain ⟨ha, hb, hc⟩ := h4 t cb src2 hpc
        exact ⟨ha, Nat.lt_succ_of_lt hb, hc⟩
      · intro t src2 hpr
        obtain ⟨ha, hb, hc⟩ := h5 t src2 hpr
        exact ⟨ha, Nat.lt_succ_of_lt hb, hc⟩
      · exact Nat.lt_succ_of_lt h6

lemma coordInv_tabCallback (s : BgState) (i : Nat) (ok : Bool)
    (h : CoordInv s) : CoordInv (runTabCallback s i ok) := by
  obtain ⟨h1, h2, h3, h4, h5, h6⟩ := h
  cases hget : s.inflight.get? i with
  | none =>
    simp only [runTabCallback, hget]
    exact ⟨h1, h2, h3, h4, h5, h6⟩
  | some e =>
    obtain ⟨t, cb, src⟩ := e
    have hmem : (t, cb, src) ∈ s.inflight := List.get?_mem hget
    have hsub : List.Sublist (s.inflight.eraseIdx i) s.inflight :=
      List.eraseIdx_sublist s.inflight i
    have hne : ∀ b ∈ s.inflight.eraseIdx i, b.1 ≠ t := by
      intro b hb
      rcases pairwise_get_eraseIdx s.inflight i (t, cb, src) h3 hget b hb with hr | hr
      · exact fun hbt => hr hbt.symm
      · exact hr
    obtain ⟨hpcT, hprT, ht0, htlt, hsrc0⟩ := h2 _ hmem
    have hget2 : s.inflight[i]? = some (t, cb, src) := by
      rw [← List.get?_eq_getElem?]
      exact hget
    cases ok with
    | true =>
      have heq : runTabCallback s i true =
          { s with
            inflight := s.inflight.eraseIdx i,
            pendingContext := fun u => if u = t then some (cb, src) else s.pendingContext u } := by
        simp [runTabCallback, hget2]
      rw [heq]
      refine ⟨?_, ?_, h3.sublist hsub, ?_, h5, h6⟩
      · intro u hu
        have hu2 : (if u = t then some (cb, src) else s.pendingContext u).isSome = true := hu
        by_cases hut : u = t
        · subst hut
          exact hprT
        · rw [if_neg hut] at hu2
          exact h1 u hu2
      · intro e2 he
        have heS := h2 e2 (hsub.subset he)
        refine ⟨?_, heS.2.1, heS.2.2.1, heS.2.2.2.1, heS.2.2.2.2⟩
        show (if e2.1 = t then some (cb, src) else s.pendingContext e2.1) = none
        rw [if_neg (hne e2 he)]
        exact heS.1
      · intro u cb2 src2 hu
        have hu2 : (if u = t then some (cb, src) else s.pendingContext u) = some (cb2, src2) := hu
        by_cases hut : u = t
        · subst hut
          rw [if_pos rfl, Option.some.injEq, Prod.mk.injEq] at hu2
          obtain ⟨hcb, hsrc⟩ := hu2
          subst hcb
          subst hsrc
          exact ⟨ht0, htlt, hsrc0⟩
        · rw [if_neg hut] at hu2
          exact h4 u cb2 src2 hu2
    | false =>
      have heq : runTabCallback s i false = { s with inflight := s.inflight.eraseIdx i } := by
        simp [runTabCallback, hget2]
      rw [heq]
      refine ⟨h1, ?_, h3.sublist hsub, h4, h5, h6⟩
      intro e2 he
      exact h2 e2 (hsub.subset he)

lemma coordInv_ready (s : BgState) (senderTab : Nat)
    (h : CoordInv s) : CoordInv (handleReady s senderTab).1 := by
  obtain ⟨h1, h2, h3, h4, h5, h6⟩ := h
  by_cases h0 : senderTab = 0
  · simp only [handleReady, if_pos h0]
    exact ⟨h1, h2, h3, h4, h5, h6⟩
  · cases hpc : s.pendingContext senderTab with
    | none =>
      simp only [handleReady, if_neg h0, hpc]
      exact ⟨h1, h2, h3, h4, h5, h6⟩
    | some e =>
      obtain ⟨cb, src⟩ := e
      obtain ⟨ht0, htlt, hsrc0⟩ := h4 senderTab cb src hpc
      have heq : (handleReady s senderTab).1 =
          { s with
            pendingContext := fun u => if u = senderTab then none else s.pendingContext u,
            pendingReview := fun u => if u = senderTab then some src else s.pendingReview u } := by
        simp [handleReady, if_neg h0, hpc]
      rw [heq]
      refine ⟨?_, ?_, h3, ?_, ?_, h6⟩
      · intro u hu
        have hu2 : (if u = senderTab then none else s.pendingContext u).isSome = true := hu
        by_cases hut : u = senderTab
        · rw [if_pos hut] at hu2
          simp at hu2
        · rw [if_neg hut] at hu2
          show (if u = senderTab then some src else s.pendingReview u) = none
          rw [if_neg hut]
          exact h1 u hu2
      · intro e2 he
        obtain ⟨ha, hb, hc, hd, hee⟩ := h2 e2 he
        have hes : e2.1 ≠ senderTab := by
          intro hbad
          rw [hbad] at ha
          rw [ha] at hpc
          exact Option.noConfusion hpc
        refine ⟨?_, ?_, hc, hd, hee⟩
        · show (if e2.1 = senderTab then none else s.pendingContext e2.1) = none
          rw [if_neg hes]
          exact ha
        · show (if e2.1 = senderTab then some src else s.pendingReview e2.1) = none
          rw [if_neg hes]
          exact hb
      · intro u cb2 src2 hu
        have hu2 : (if u = senderTab then none else s.pendingContext u) = some (cb2, src2) := hu
        by_cases hut : u = senderTab
        · rw [if_pos hut] at hu2
          exact Option.noConfusion hu2
        · rw [if_neg hut] at hu2
          exact h4 u cb2 src2 hu2
      · intro u src2 hu
        have hu2 : (if u = senderTab then some src else s.pendingReview u) = some src2 := hu
        by_cases hut : u = senderTab
        · rw [if_pos hut, Option.some.injEq] at hu2
          subst hu2
          subst hut
          exact ⟨ht0, htlt, hsrc0⟩
        · rw [if_neg hut] at hu2
          exact h5 u src2 hu2

lemma coordInv_result (s : BgState) (senderTab : Nat) (content : String)
    (h : CoordInv s) : CoordInv (handleResult s senderTab content).1 := by
  obtain ⟨h1, h2, h3, h4, h5, h6⟩ := h
  by_cases h0 : senderTab = 0
  · simp only [handleResult, if_pos h0]
    exact ⟨h1, h2, h3, h4, h5, h6⟩
  · cases hpr : s.pendingReview senderTab with
    | none =>
      simp only [handleResult, if_neg h0, hpr]
      exact ⟨h1, h2, h3, h4, h5, h6⟩
    | some src =>
      by_cases hs0 : src = 0
      · simp only [handleResult, if_neg h0, hpr, if_pos hs0]
        exact ⟨h1, h2, h3, h4, h5, h6⟩
      · have heq : (handleResult s senderTab content).1 =
            { s with
              pendingReview := fun u => if u = senderTab then none else s.pendingReview u } := by
          simp [handleResult, if_neg h0, hpr, if_neg hs0]
        rw [heq]
        refine ⟨?_, ?_, h3, h4, ?_, h6⟩
        · intro u hu
          show (if u = senderTab then none else s.pendingReview u) = none
          by_cases hut : u = senderTab
          · rw [if_pos hut]
          · rw [if_neg hut]
            exact h1 u hu
        · intro e2 he
          obtain ⟨ha, hb, hc, hd, hee⟩ := h2 e2 he
          refine ⟨ha, ?_, hc, hd, hee⟩
          show (if e2.1 = senderTab then none else s.pendingReview e2.1) = none
          by_cases hes : e2.1 = senderTab
          · rw [if_pos hes]
          · rw [if_neg hes]
            exact hb
        · intro u src2 hu
          have hu2 : (if u = senderTab then none else s.pendingReview u) = some src2 := hu
          by_cases hut : u = senderTab
          · rw [if_pos hut] at hu2
            exact Option.noConfusion hu2
          · rw [if_neg hut] at hu2
            exact h5 u src2 hu2

lemma coordInv_step (s : BgState) (e : Ev) (h : CoordInv s) : CoordInv (step s e) := by
  cases e with
  | capture summary senderTab => exact coordInv_capture s summary senderTab h
  | tabCreated i ok => exact coordInv_tabCallback s i ok h
  | ready senderTab => exact coordInv_ready s senderTab h
  | result senderTab content => exact coordInv_result s senderTab content h

lemma coordInv_run (evs : List Ev) : CoordInv (run evs) := by
  suffices hgen : ∀ (l : List Ev) (s : BgState), CoordInv s → CoordInv (List.foldl step s l) by
    exact hgen evs initState coordInv_init
  intro l
  induction l with
  | nil => intro s hs; exact hs
  | cons e rest ih =>
    intro s hs
    exact ih (step s e) (coordInv_step s e hs)

/-- Claim C1: in every coordinator state reachable by any sequence of Capture,
callback, Ready and Result events (tab creation assigning fresh tab
identities), no Claude-tab identity has both a PendingContext entry and a
PendingReview entry: at any time at most one of the two tables holds the tab,
realising the strict awaiting-injection → awaiting-result → absent
lifecycle. -/
theorem c1_tables_mutually_exclusive (evs : List Ev) (t : Nat) :
    (run evs).pendingContext t = none ∨ (run evs).pendingReview t = none := by
  cases hpc : (run evs).pendingContext t with
  | none => exact Or.inl rfl
  | some v => exact Or.inr ((coordInv_run evs).1 t (by rw [hpc]; rfl))

/-- Claim C5: in every reachable coordinator state in which the sender's tab
identity has a PendingReview entry recording source tab `src`, handling
CLAUDE_RESPONSE deletes exactly that entry (PendingContext and the other
PendingReview entries are untouched) and forwards the content as a single
INJECT_CRITIQUE request to `src`, the originating ChatGPT tab, with the fixed
critique preamble prepended. -/
theorem c5_result_forwards_critique (evs : List Ev) (senderTab src : Nat)
    (content : String) (u : Nat)
    (h : (run evs).pendingReview senderTab = some src) :
    (handleResult (run evs) senderTab content).2 =
        [{ tabId := src, content := critiqueHeader ++ content }] ∧
    ((handleResult (run evs) senderTab content).1).pendingReview senderTab = none ∧
    (u ≠ senderTab →
      ((handleResult (run evs) senderTab content).1).pendingReview u =
        (run evs).pendingReview u) ∧
    ((handleResult (run evs) senderTab content).1).pendingContext =
      (run evs).pendingContext := by
  obtain ⟨ht0, _, hsrc0⟩ := (coordInv_run evs).2.2.2.2.1 senderTab src h
  have h0 : senderTab ≠ 0 := Nat.pos_iff_ne_zero.mp ht0
  have heq : handleResult (run evs) senderTab content =
      ({ run evs with
         pendingReview := fun v => if v = senderTab then none else (run evs).pendingReview v },
       [{ tabId := src, content := critiqueHeader ++ content }]) := by
    simp [handleResult, if_neg h0, h, if_neg hsrc0]
  rw [heq]
  refine ⟨rfl, ?_, ?_, rfl⟩
  · show (if senderTab = senderTab then none else (run evs).pendingReview senderTab) = none
    rw [if_pos rfl]
  · intro hu
    show (if u = senderTab then none else (run evs).pendingReview u) =
      (run evs).pendingReview u
    rw [if_neg hu]

/-- Witness for C5: after Capture from tab 5, the creation callback, and
CLAUDE_READY from the fresh tab 1, a CLAUDE_RESPONSE from tab 1 is forwarded
to tab 5 with the critique preamble, the entry is deleted, and the rest of
the state is untouched. -/
theorem c5_result_forwards_critique_witness :
    (handleResult (run [Ev.capture (some emptySummary) 5, Ev.tabCreated 0 true, Ev.ready 1])
        1 "crit").2 =
      [{ tabId := 5, content := critiqueHeader ++ "crit" }] ∧
    ((handleResult (run [Ev.capture (some emptySummary) 5, Ev.tabCreated 0 true, Ev.ready 1])
        1 "crit").1).pendingReview 1 = none ∧
    (2 ≠ 1 →
      ((handleResult (run [Ev.capture (some emptySummary) 5, Ev.tabCreated 0 true, Ev.ready 1])
          1 "crit").1).pendingReview 2 =
        (run [Ev.capture (some emptySummary) 5, Ev.tabCreated 0 true, Ev.ready 1]).pendingReview 2) ∧
    ((handleResult (run [Ev.capture (some emptySummary) 5, Ev.tabCreated 0 true, Ev.ready 1])
        1 "crit").1).pendingContext =
      (run [Ev.capture (some emptySummary) 5, Ev.tabCreated 0 true, Ev.ready 1]).pendingContext :=
  c5_result_forwards_critique
    [Ev.capture (some emptySummary) 5, Ev.tabCreated 0 true, Ev.ready 1] 1 5 "crit" 2 rfl

lemma string_mk_data (s : String) : String.mk s.data = s := rfl

lemma expectChars_append : ∀ (p rest : List Char), expectChars p (p ++ rest) = some rest := by
  intro p
  induction p with
  | nil => intro rest; rfl
  | cons c cs ih =>
    intro rest
    show expectChars (c :: cs) (c :: (cs ++ rest)) = some rest
    rw [expectChars.eq_def]
    simp only [if_true]
    exact ih rest

lemma hexVal_hexDig : ∀ n, n < 16 → hexVal (hexDig n) = some n := by decide

lemma parseJString_escChar (c : Char) (fuel : Nat) (acc rest : List Char) :
    parseJString (fuel + 1) acc (jsonEscapeChar c ++ rest) = parseJString fuel (c :: acc) rest := by
  by_cases h1 : c = '"'
  · subst h1; rfl
  · by_cases h2 : c = '\\'
    · subst h2; rfl
    · by_cases h3 : c = '\x08'
      · subst h3; rfl
      · by_cases h4 : c = '\x0c'
        · subst h4; rfl
        · by_cases h5 : c = '\n'
          · subst h5; rfl
          · by_cases h6 : c = '\r'
            · subst h6; rfl
            · by_cases h7 : c = '\t'
              · subst h7; rfl
              · by_cases h8 : c.toNat < 32
                · have he : jsonEscapeChar c =
                      ['\\', 'u', '0', '0', hexDig (c.toNat / 16), hexDig (c.toNat % 16)] := by
                    simp only [jsonEscapeChar, if_neg h1, if_neg h2, if_neg h3, if_neg h4,
                      if_neg h5, if_neg h6, if_neg h7, if_pos h8]
                  rw [he]
                  have hv1 : hexVal (hexDig (c.toNat / 16)) = some (c.toNat / 16) :=
                    hexVal_hexDig _ (by omega)
                  have hv2 : hexVal (hexDig (c.toNat % 16)) = some (c.toNat % 16) :=
                    hexVal_hexDig _ (by omega)
                  show parseJString (fuel + 1) acc
                      ('\\' :: 'u' :: '0' :: '0' ::
                        hexDig (c.toNat / 16) :: hexDig (c.toNat % 16) :: rest) =
                    parseJString fuel (c :: acc) rest
                  rw [parseJString.eq_def]
                  simp only [show ('\\' = '"') = False by simp,
                    show ('\\' = '\\') = True by simp, if_false, if_true]
                  simp only [show ('u' = '"') = False by simp,
                    show ('u' = '\\') = False by simp, show ('u' = 'b') = False by simp,
                    show ('u' = 'f') = False by simp, show ('u' = 'n') = False by simp,
                    show ('u' = 'r') = False by simp, show ('u' = 't') = False by simp,
                    show ('u' = 'u') = True by simp, if_false, if_true]
                  rw [show hexVal '0' = some 0 from rfl, hv1, hv2]
                  show parseJString fuel
                      (Char.ofNat (((0 * 16 + 0) * 16 + c.toNat / 16) * 16 + c.toNat % 16)
                        :: acc) rest =
                    parseJString fuel (c :: acc) rest
                  rw [show ((0 * 16 + 0) * 16 + c.toNat / 16) * 16 + c.toNat % 16 = c.toNat by
                    omega]
                  rw [Char.ofNat_toNat]
                · have he : jsonEscapeChar c = [c] := by
                    simp only [jsonEscapeChar, if_neg h1, if_neg h2, if_neg h3, if_neg h4,
                      if_neg h5, if_neg h6, if_neg h7, if_neg h8]
                  rw [he]
                  show parseJString (fuel + 1) acc (c :: rest) = parseJString fuel (c :: acc) rest
                  rw [parseJString.eq_def]
                  simp only
                  rw [if_neg h1, if_neg h2]

lemma parseJString_escape : ∀ (l : List Char) (fuel : Nat) (acc rest : List Char),
    l.length < fuel →
    parseJString fuel acc ((l.map jsonEscapeChar).flatten ++ '"' :: rest) =
      some (String.mk (acc.reverse ++ l), rest) := by
  intro l
  induction l with
  | nil =>
    intro fuel acc rest hf
    match fuel, hf with
    | fuel + 1, _ =>
      simp only [List.map_nil, List.flatten_nil, List.nil_append]
      rw [show parseJString (fuel + 1) acc ('"' :: rest) =
        some (String.mk acc.reverse, rest) from rfl]
      simp
  | cons c l ih =>
    intro fuel acc rest hf
    match fuel, hf with
    | fuel + 1, hf =>
      simp only [List.map_cons, List.flatten_cons, List.append_assoc]
      rw [parseJString_escChar c fuel acc _]
      rw [ih fuel (c :: acc) rest (by simp only [List.length_cons] at hf; omega)]
      simp [List.reverse_cons, List.append_assoc]

lemma parseJString_printed (s : String) (fuel : Nat) (rest : List Char)
    (hf : s.data.length < fuel) :
    parseJString fuel [] (jsonEscape s ++ '"' :: rest) = some (s, rest) := by
  have h := parseJString_escape s.data fuel [] rest hf
  rw [List.reverse_nil, List.nil_append, string_mk_data] at h
  exact h

lemma one_le_escChar (c : Char) : 1 ≤ (jsonEscapeChar c).length := by
  unfold jsonEscapeChar
  split_ifs <;> simp

lemma length_le_escList : ∀ l : List Char, l.length ≤ ((l.map jsonEscapeChar).flatten).length := by
  intro l
  induction l with
  | nil => simp
  | cons c l ih =>
    simp only [List.map_cons, List.flatten_cons, List.length_append, List.length_cons]
    have := one_le_escChar c
    omega

lemma length_le_jsonEscape (s : String) : s.data.length ≤ (jsonEscape s).length :=
  length_le_escList s.data

lemma data_mk (l : List Char) : (String.mk l).data = l := rfl

lemma jsonQuote_data (s : String) : (jsonQuote s).data = '"' :: (jsonEscape s ++ ['"']) := rfl

lemma le_length_items : ∀ (t : List String) (x : String),
    (x :: t).length ≤ (jsonArrayItems (x :: t)).data.length := by
  intro t
  induction t with
  | nil =>
    intro x
    have e1 : jsonArrayItems [x] = "    " ++ jsonQuote x := rfl
    rw [e1]
    simp only [String.data_append, List.length_append, List.length_cons, List.length_nil]
    have hq : (jsonQuote x).data.length = (jsonEscape x).length + 2 := by
      rw [jsonQuote_data]
      simp
    have hA : ("    " : String).data.length = 4 := rfl
    omega
  | cons y t2 ih =>
    intro x
    have h1 := ih y
    have e1 : jsonArrayItems (x :: y :: t2) =
        "    " ++ jsonQuote x ++ ",\n" ++ jsonArrayItems (y :: t2) := rfl
    rw [e1]
    simp only [String.data_append, List.length_append, List.length_cons]
    simp only [List.length_cons] at h1
    have hq : (jsonQuote x).data.length = (jsonEscape x).length + 2 := by
      rw [jsonQuote_data]
      simp
    have hA : ("    " : String).data.length = 4 := rfl
    have hC : (",\n" : String).data.length = 2 := rfl
    omega

lemma parseArrayLoop_printed : ∀ (xs : List String) (fuel : Nat) (rest : List Char),
    xs ≠ [] → xs.length ≤ fuel →
    parseArrayLoop fuel ((jsonArrayItems xs).data ++ '\n' :: ' ' :: ' ' :: ']' :: rest) =
      some (xs, rest) := by
  intro xs
  induction xs with
  | nil => intro fuel rest hne _; exact absurd rfl hne
  | cons x t ih =>
    intro fuel rest _ hf
    match fuel, hf with
    | fuel + 1, hf =>
      cases t with
      | nil =>
        have hshape : (jsonArrayItems [x]).data ++ '\n' :: ' ' :: ' ' :: ']' :: rest =
            [' ', ' ', ' ', ' ', '"'] ++
              (jsonEscape x ++ '"' :: '\n' :: ' ' :: ' ' :: ']' :: rest) := by
          have e1 : jsonArrayItems [x] = "    " ++ jsonQuote x := rfl
          rw [e1]
          simp [String.data_append, jsonQuote_data]
        rw [hshape, parseArrayLoop.eq_def]
        simp only [expectChars_append]
        rw [parseJString_printed x _ _ (by
          have := length_le_jsonEscape x
          simp only [List.length_append, List.length_cons]
          omega)]
        rfl
      | cons y t2 =>
        have hshape : (jsonArrayItems (x :: y :: t2)).data ++ '\n' :: ' ' :: ' ' :: ']' :: rest =
            [' ', ' ', ' ', ' ', '"'] ++
              (jsonEscape x ++ '"' :: ',' :: '\n' ::
                ((jsonArrayItems (y :: t2)).data ++ '\n' :: ' ' :: ' ' :: ']' :: rest)) := by
          have e1 : jsonArrayItems (x :: y :: t2) =
              "    " ++ jsonQuote x ++ ",\n" ++ jsonArrayItems (y :: t2) := rfl
          rw [e1]
          simp [String.data_append, jsonQuote_data]
        rw [hshape, parseArrayLoop.eq_def]
        simp only [expectChars_append]
        rw [parseJString_printed x _ _ (by
          have := length_le_jsonEscape x
          simp only [List.length_append, List.length_cons]
          omega)]
        simp only
        rw [ih fuel rest (List.cons_ne_nil y t2) (by
          simp only [List.length_cons] at hf ⊢
          omega)]

lemma parseJsonArray_printed (xs : List String) (rest : List Char) :
    parseJsonArray ((jsonStringArray xs).data ++ rest) = some (xs, rest) := by
  cases xs with
  | nil => rfl
  | cons x t =>
    have hshape : (jsonStringArray (x :: t)).data ++ rest =
        '[' :: '\n' :: ((jsonArrayItems (x :: t)).data ++ '\n' :: ' ' :: ' ' :: ']' :: rest) := by
      have e1 : jsonStringArray (x :: t) = "[\n" ++ jsonArrayItems (x :: t) ++ "\n  ]" := rfl
      rw [e1]
      simp [String.data_append]
    rw [hshape]
    show parseArrayLoop
        (((jsonArrayItems (x :: t)).data ++ '\n' :: ' ' :: ' ' :: ']' :: rest).length + 1)
        ((jsonArrayItems (x :: t)).data ++ '\n' :: ' ' :: ' ' :: ']' :: rest) =
      some (x :: t, rest)
    apply parseArrayLoop_printed (x :: t) _ rest (List.cons_ne_nil x t)
    have := le_length_items t x
    simp only [List.length_append, List.length_cons]
    simp only [List.length_cons] at this
    omega

lemma parseJString_printed_auto (s : String) (tail : List Char) :
    parseJString ((jsonEscape s ++ '"' :: tail).length + 1) [] (jsonEscape s ++ '"' :: tail) =
      some (s, tail) := by
  apply parseJString_printed
  have := length_le_jsonEscape s
  simp only [List.length_append, List.length_cons]
  omega

/-- Claim C9: for every summary record, formatting it into the context block
and then parsing the embedded JSON section back out recovers exactly the five
fields topic, user_goal, important_facts, decisions_made, current_task, after
the formatter's defaulting of missing or falsy scalar fields to the empty
string and missing sequence fields to the empty list; the round-trip is
well-defined for every summary, the all-fields-empty one included. -/
theorem c9_format_extract_roundtrip (sum : Summary) :
    extractContextFields (formatContextBlock sum) = some (normalizeSummary sum) := by
  have hs1 : ("\n\n\x7b\n  \"topic\": \"" : String).data =
      ("\n\n" : String).data ++ ("\x7b\n  \"topic\": " : String).data ++ ['"'] := rfl
  have hs2 : (",\n  \"user_goal\": \"" : String).data =
      (",\n  \"user_goal\": " : String).data ++ ['"'] := rfl
  have hs5 : (",\n  \"current_task\": \"" : String).data =
      (",\n  \"current_task\": " : String).data ++ ['"'] := rfl
  have hdata : (formatContextBlock sum).data =
      (contextPreamble ++ "\n\n\x7b\n  \"topic\": \"").data ++
        (jsonEscape (sum.topic.getD "") ++ '"' ::
          ((",\n  \"user_goal\": \"" : String).data ++
            (jsonEscape (sum.user_goal.getD "") ++ '"' ::
              ((",\n  \"important_facts\": " : String).data ++
                ((jsonStringArray (sum.important_facts.getD [])).data ++
                  ((",\n  \"decisions_made\": " : String).data ++
                    ((jsonStringArray (sum.decisions_made.getD [])).data ++
                      ((",\n  \"current_task\": \"" : String).data ++
                        (jsonEscape (sum.current_task.getD "") ++ '"' ::
                          (("\n\x7d" : String).data ++
                            ("\n\n" ++ questionOf sum).data)))))))))) := by
    simp only [formatContextBlock, contextJsonOf, jsonQuote, data_mk, String.data_append,
      hs1, hs2, hs5, List.append_assoc, List.cons_append, List.nil_append,
      List.singleton_append]
  simp only [extractContextFields, hdata, expectChars_append, parseJString_printed_auto,
    parseJsonArray_printed, normalizeSummary]

lemma string_append_assoc (a b c : String) : a ++ b ++ c = a ++ (b ++ c) := by
  apply String.ext
  simp [String.data_append, List.append_assoc]

lemma takeWhile_append_cons (p : Char → Bool) (x : Char) :
    ∀ (l1 l2 : List Char), (∀ c ∈ l1, p c = true) → p x = false →
      List.takeWhile p (l1 ++ x :: l2) = l1 := by
  intro l1
  induction l1 with
  | nil =>
    intro l2 _ hx
    simp [List.takeWhile_cons, hx]
  | cons c t ih =>
    intro l2 hall hx
    simp only [List.cons_append, List.takeWhile_cons]
    rw [hall c (List.mem_cons_self c t)]
    simp only [if_true]
    rw [ih l2 (fun d hd => hall d (List.mem_cons_of_mem c hd)) hx]

lemma lastLineOf_append (a q : String) (hq : ∀ c ∈ q.data, c ≠ '\n') :
    lastLineOf (a ++ "\n" ++ q) = q := by
  unfold lastLineOf
  have hd : (a ++ "\n" ++ q).data = a.data ++ '\n' :: q.data := by
    rw [String.data_append, String.data_append]
    rw [show ("\n" : String).data = ['\n'] from rfl]
    simp [List.append_assoc]
  rw [hd, List.reverse_append]
  rw [show ('\n' :: q.data).reverse = q.data.reverse ++ ['\n'] from by
    simp [List.reverse_cons]]
  rw [List.append_assoc, List.singleton_append]
  rw [takeWhile_append_cons _ '\n' q.data.reverse a.data.reverse
    (fun c hc => by
      rw [List.mem_reverse] at hc
      exact decide_eq_true (hq c hc))
    (by simp)]
  rw [List.reverse_reverse, string_mk_data]

/-- Claim C10: whenever the summary's current_task field is missing, empty, or
otherwise falsy, the formatted context block closes with the generic question
"What are your thoughts on the above context?" as its last line; and exactly
when current_task is truthy, the block instead ends with the
"Please help me continue with: ..." closing line carrying that task. -/
theorem c10_closing_line (sum : Summary) :
    (currentTaskFalsy sum → lastLineOf (formatContextBlock sum) = genericQuestion) ∧
    (¬ currentTaskFalsy sum →
      ∃ t, sum.current_task = some t ∧ t ≠ "" ∧
        formatContextBlock sum =
          (contextPreamble ++ "\n\n" ++ contextJsonOf sum ++ "\n") ++ "\n" ++
            continueQuestion t) := by
  constructor
  · intro hf
    have hq : questionOf sum = genericQuestion := by
      rcases hf with hf | hf <;> simp [questionOf, hf]
    have hb : formatContextBlock sum =
        (contextPreamble ++ "\n\n" ++ contextJsonOf sum ++ "\n") ++ "\n" ++ genericQuestion := by
      rw [formatContextBlock, hq]
      rw [show ("\n\n" : String) = "\n" ++ "\n" from rfl]
      simp [string_append_assoc]
    rw [hb]
    exact lastLineOf_append _ _ (by decide)
  · intro hnf
    match hc : sum.current_task with
    | none => exact absurd (Or.inl hc) hnf
    | some t =>
      by_cases ht : t = ""
      · subst ht
        exact absurd (Or.inr hc) hnf
      · refine ⟨t, rfl, ht, ?_⟩
        have hq : questionOf sum = continueQuestion t := by
          simp [questionOf, hc, ht]
        rw [formatContextBlock, hq]
        rw [show ("\n\n" : String) = "\n" ++ "\n" from rfl]
        simp [string_append_assoc]

/-- Witness for C10: a summary with no current_task gets the generic closing
line. -/
theorem c10_closing_line_witness :
    lastLineOf (formatContextBlock emptySummary) = genericQuestion :=
  (c10_closing_line emptySummary).1 (Or.inl rfl)
